import Mathlib

/-
Verification of the marker-recovery subsystem of camera_sensor_fusion
(src/camera_fusion/fallback/lightglue_fallback.py).

Shallow embedding conventions:
  * Pixel coordinates are rationals (the source uses float32 arrays;
    the geometry and all comparisons are embedded exactly, over ℚ).
  * A corner array of shape (n, 2) is a `List Pt`; the source's shape
    check `shape == (4, 2)` becomes a length-4 check.
  * Opaque OpenCV / torch calls (cvtColor, calcOpticalFlowPyrLK,
    cornerSubPix, SuperPoint+LightGlue matching, findHomography,
    perspectiveTransform, ArUco decoding of the warped patch) are
    oracle functions collected in `Env`.  Everything the repository's
    own code does around those calls (ROI construction, clamping,
    guard order, bounds checks, counters, rate limits, state updates)
    is embedded directly from the source.
  * A Python `None`-able value is an `Option`; a `try/except` block
    whose handler returns `None` is modelled by the oracle returning
    `none` (for exceptions arising inside the black-box calls) plus
    explicit `none` results at the places the repository's own code
    can raise (empty-array `min()`, `reshape`).
  * Mutable instance state (`tracker_states`, `current_frame_index`,
    `last_reacquire_frame`) is threaded explicitly as `FBState`.
  * `recover_missing` additionally returns a list of `REvent`
    records, one per invocation of `_recover_marker`, recording which
    recovery stages were entered; these are pure instrumentation of
    the control flow (one event per loop iteration that made an
    attempt) and change nothing about the computed data.
-/

/-- A 2-D pixel coordinate (one row of a (n, 2) float array). -/
structure Pt where
  x : ℚ
  y : ℚ
  deriving DecidableEq

/-- A grayscale frame: height, width (numpy `shape = (h, w)`) and an
abstract content tag standing for the pixel data. -/
structure GrayFrame where
  h : ℕ
  w : ℕ
  data : ℕ
  deriving DecidableEq

/-- The `TrackerState` dataclass: last known state of a marker. -/
structure TrackerState where
  marker_id : ℤ
  last_corners : Option (List Pt)
  last_seen_frame_index : ℤ
  last_frame_gray : Option GrayFrame
  deriving DecidableEq

/-- The `DebugInfo` dataclass: debug information for recovered markers. -/
structure DebugInfo where
  marker_id : ℤ
  source : String
  inliers : ℤ
  match_quality : ℚ
  homography : Option ℕ
  deriving DecidableEq

/-- The fields of `LightGlueConfig` read by the fallback code. -/
structure Config where
  verify_id : Bool
  min_inliers : ℤ
  max_age_frames : ℤ
  roi_expand_px : ℤ
  max_fallback_markers_per_frame : ℤ
  reacquire_interval_frames : ℤ
  prefer_roi_matching : Bool
  corner_refine : Bool
  deriving DecidableEq

/-- Oracles for the black-box OpenCV / torch calls.  A search region for
re-acquisition is `none` (full frame) or `some (x0, y0, x1, y1)`. -/
structure Env where
  cvtGray : ℕ → GrayFrame
  optFlow : GrayFrame → GrayFrame → ℤ × ℤ × ℤ × ℤ → List Pt →
    Option (List Pt × List Bool × Option ℚ)
  subPix : GrayFrame → List Pt → List Pt
  lgMatch : GrayFrame → Option (ℤ × ℤ × ℤ × ℤ) → ℤ → ℕ
  findH : GrayFrame → Option (ℤ × ℤ × ℤ × ℤ) → ℤ → Option (ℕ × ℕ)
  project : ℕ → List Pt → List Pt
  decodeWarped : GrayFrame → List Pt → Except Unit (List ℤ)

/-- Mutable state of a `LightGlueFallback` instance. -/
structure FBState where
  enabled : Bool
  detectorAvailable : Bool
  tracker_states : ℤ → Option TrackerState
  current_frame_index : ℤ
  last_reacquire_frame : ℤ → Option ℤ
  templates : ℤ → Option (List Pt)

/-- One record per `_recover_marker` invocation inside
`recover_missing`: which marker was attempted, whether the motion
tracker was invoked, whether template re-acquisition was invoked, and
whether a recovered quad was merged into the output. -/
structure REvent where
  mid : ℤ
  trackAttempted : Bool
  reacquireAttempted : Bool
  merged : Bool
  deriving DecidableEq

/-- Result of `_recover_marker`: the (verified) recovery result, the
updated `last_reacquire_frame` map, and which stages were invoked. -/
structure RecoverOut where
  res : Option (List Pt × DebugInfo)
  lastReacq : ℤ → Option ℤ
  trackAttempted : Bool
  reacquireAttempted : Bool

/-- Accumulator of the per-missing-marker loop in `recover_missing`. -/
structure LoopAcc where
  updated : List (ℤ × List Pt)
  debug : List DebugInfo
  attempts : ℤ
  lastReacq : ℤ → Option ℤ
  events : List REvent

/-- Point update of a map `ℤ → Option α` (Python dict assignment). -/
def updMap {α : Type} (m : ℤ → Option α) (k : ℤ) (v : α) : ℤ → Option α :=
  fun i => if i = k then some v else m i

/-- Dict lookup on an association list (keys are unique in any list
that models a Python dict). -/
def lookupA (l : List (ℤ × List Pt)) (k : ℤ) : Option (List Pt) :=
  match l with
  | [] => none
  | p :: t => if p.1 = k then some p.2 else lookupA t k

/-- Dict assignment `d[k] = v` on an association list: replace the
value at an existing key, else append. -/
def updAssoc (l : List (ℤ × List Pt)) (k : ℤ) (v : List Pt) :
    List (ℤ × List Pt) :=
  match l with
  | [] => [(k, v)]
  | p :: t => if p.1 = k then (k, v) :: t else p :: updAssoc t k v

/-- Embedding of `np.min` over the x coordinates (`None` for an empty array, where
numpy would raise). -/
def minXs (l : List Pt) : Option ℚ :=
  match l.map Pt.x with
  | [] => none
  | a :: rest => some (rest.foldl min a)

/-- Embedding of `np.max` over the x coordinates. -/
def maxXs (l : List Pt) : Option ℚ :=
  match l.map Pt.x with
  | [] => none
  | a :: rest => some (rest.foldl max a)

/-- Embedding of `np.min` over the y coordinates. -/
def minYs (l : List Pt) : Option ℚ :=
  match l.map Pt.y with
  | [] => none
  | a :: rest => some (rest.foldl min a)

/-- Embedding of `np.max` over the y coordinates. -/
def maxYs (l : List Pt) : Option ℚ :=
  match l.map Pt.y with
  | [] => none
  | a :: rest => some (rest.foldl max a)

/-- The source's out-of-frame test
`(c < 0).any() or (c[:,0] >= w).any() or (c[:,1] >= h).any()`. -/
def cornersOutOfBounds (w h : ℕ) (l : List Pt) : Bool :=
  l.any fun p =>
    decide (p.x < 0) || decide (p.y < 0) ||
    decide ((w : ℚ) ≤ p.x) || decide ((h : ℚ) ≤ p.y)

/-- The point lies inside the frame: `0 ≤ x < w` and `0 ≤ y < h`. -/
def inFrame (w h : ℕ) (p : Pt) : Prop :=
  0 ≤ p.x ∧ 0 ≤ p.y ∧ p.x < (w : ℚ) ∧ p.y < (h : ℚ)

instance (w h : ℕ) (p : Pt) : Decidable (inFrame w h p) := by
  unfold inFrame; infer_instance

/-- ROI construction of `_track_marker` (lines 433–446): expand the
bounding box of the last corners by `roi_expand_px`, clamp to the
frame, fail on an empty box.  `none` covers both the degenerate box
and the exception numpy raises on an empty corner array. -/
def trackRoi (cfg : Config) (fg : GrayFrame) (lc : List Pt) :
    Option (ℤ × ℤ × ℤ × ℤ) :=
  match minXs lc, maxXs lc, minYs lc, maxYs lc with
  | some lx, some ux, some ly, some uy =>
    let x0 := max 0 (⌊lx⌋ - cfg.roi_expand_px)
    let x1 := min (fg.w : ℤ) (⌈ux⌉ + cfg.roi_expand_px)
    let y0 := max 0 (⌊ly⌋ - cfg.roi_expand_px)
    let y1 := min (fg.h : ℤ) (⌈uy⌉ + cfg.roi_expand_px)
    if x1 ≤ x0 ∨ y1 ≤ y0 then none else some (x0, y0, x1, y1)
  | _, _, _, _ => none

/-- Embedding of `_verify_marker_id` (lines 134–193): warp the candidate quad to a
canonical square and decode it; returns `True` when verification is
disabled or no detector is available; an exception, empty decode, or
mismatched id gives `False`. -/
def verify_marker_id (cfg : Config) (env : Env) (detectorAvailable : Bool)
    (frame_gray : GrayFrame) (corners : List Pt) (expected_id : ℤ) : Bool :=
  if cfg.verify_id = false ∨ detectorAvailable = false then true
  else
    match env.decodeWarped frame_gray corners with
    | Except.error _ => false
    | Except.ok ids => decide (ids ≠ [] ∧ expected_id ∈ ids)

/-- Embedding of `_track_marker` (lines 415–504): optical-flow tracking of the four
corners inside an ROI, with the all-status check, translation back to
full-frame coordinates, the bounds check, and optional sub-pixel
refinement (which happens after the bounds check). -/
def track_marker (cfg : Config) (env : Env) (marker_id : ℤ)
    (ts : TrackerState) (frame_gray : GrayFrame) :
    Option (List Pt × DebugInfo) :=
  match ts.last_corners, ts.last_frame_gray with
  | some lc, some prevGray =>
    match trackRoi cfg frame_gray lc with
    | none => none
    | some (x0, y0, x1, y1) =>
      match env.optFlow prevGray frame_gray (x0, y0, x1, y1)
          (lc.map fun p => ⟨p.x - (x0 : ℚ), p.y - (y0 : ℚ)⟩) with
      | none => none
      | some (next, status, errMean) =>
        if status.all (fun b => b) then
          let tracked := next.map fun p =>
            (⟨p.x + (x0 : ℚ), p.y + (y0 : ℚ)⟩ : Pt)
          if cornersOutOfBounds frame_gray.w frame_gray.h tracked then none
          else
            let tracked2 :=
              if cfg.corner_refine then env.subPix frame_gray tracked
              else tracked
            if tracked2.length = 4 then
              some (tracked2,
                ⟨marker_id, "lg_track", 4,
                  match errMean with
                  | some e => 1 - e
                  | none => 1,
                  none⟩)
            else none
        else none
  | _, _ => none

/-- Search-region choice of `_reacquire_from_template`
(lines 537–564): an ROI around the last known corners expanded by
`3 * roi_expand_px` when `prefer_roi_matching` holds and tracker state
with corners exists, else the full frame (`some none`).  The outer
`none` is the exception numpy raises on an empty corner array, which
aborts the whole attempt. -/
def reacquireRoi (cfg : Config) (fg : GrayFrame)
    (tsOpt : Option TrackerState) : Option (Option (ℤ × ℤ × ℤ × ℤ)) :=
  if cfg.prefer_roi_matching then
    match tsOpt with
    | none => some none
    | some ts =>
      match ts.last_corners with
      | none => some none
      | some lc =>
        match minXs lc, maxXs lc, minYs lc, maxYs lc with
        | some lx, some ux, some ly, some uy =>
          let e := cfg.roi_expand_px * 3
          let x0 := max 0 (⌊lx⌋ - e)
          let x1 := min (fg.w : ℤ) (⌈ux⌉ + e)
          let y0 := max 0 (⌊ly⌋ - e)
          let y1 := min (fg.h : ℤ) (⌈uy⌉ + e)
          if x0 < x1 ∧ y0 < y1 then some (some (x0, y0, x1, y1))
          else some none
        | _, _, _, _ => none
  else some none

/-- Embedding of `_reacquire_from_template` (lines 506–664): template feature
matching, homography fit, corner projection, translation out of the
ROI, the bounds check against the full frame, and optional sub-pixel
refinement (again after the bounds check). -/
def reacquire_from_template (cfg : Config) (env : Env)
    (templates : ℤ → Option (List Pt))
    (tstates : ℤ → Option TrackerState) (marker_id : ℤ)
    (frame_gray : GrayFrame) : Option (List Pt × DebugInfo) :=
  match templates marker_id with
  | none => none
  | some tcorners =>
    match reacquireRoi cfg frame_gray (tstates marker_id) with
    | none => none
    | some roi =>
      let validSum := env.lgMatch frame_gray roi marker_id
      if (validSum : ℤ) < cfg.min_inliers then none
      else
        match env.findH frame_gray roi marker_id with
        | none => none
        | some (hTag, inliers) =>
          if (inliers : ℤ) < cfg.min_inliers then none
          else if tcorners.length = 4 then
            let projected := env.project hTag tcorners
            if projected.length = 4 then
              let off : ℤ × ℤ :=
                match roi with
                | some (rx0, ry0, _, _) => (rx0, ry0)
                | none => (0, 0)
              let corners :=
                if off.1 ≠ 0 ∨ off.2 ≠ 0 then
                  projected.map fun p =>
                    (⟨p.x + (off.1 : ℚ), p.y + (off.2 : ℚ)⟩ : Pt)
                else projected
              if cornersOutOfBounds frame_gray.w frame_gray.h corners then none
              else
                let corners2 :=
                  if cfg.corner_refine then env.subPix frame_gray corners
                  else corners
                some (corners2,
                  ⟨marker_id, "lg_reacquire", (inliers : ℤ),
                    if 0 < validSum then (inliers : ℚ) / (validSum : ℚ)
                    else 0,
                    some hTag⟩)
            else none
          else none

/-- The tracking phase of `_recover_marker` (lines 373–387): attempt
motion tracking only if tracker state exists, the marker's age is
within `max_age_frames`, and a previous grayscale snapshot is cached;
a tracked quad must pass identity verification to be returned.  The
second component records whether `_track_marker` was invoked. -/
def trackPhase (cfg : Config) (env : Env) (st : FBState)
    (frame_gray : GrayFrame) (marker_id : ℤ) :
    Option (List Pt × DebugInfo) × Bool :=
  match st.tracker_states marker_id with
  | none => (none, false)
  | some ts =>
    if st.current_frame_index - ts.last_seen_frame_index ≤ cfg.max_age_frames
        ∧ ts.last_frame_gray ≠ none then
      match track_marker cfg env marker_id ts frame_gray with
      | some (cs, info) =>
        if verify_marker_id cfg env st.detectorAvailable frame_gray cs
            marker_id then
          (some (cs, info), true)
        else (none, true)
      | none => (none, true)
    else (none, false)

/-- Embedding of `_recover_marker` (lines 352–413): tracking first; then the
re-acquire interval guard against `last_reacquire_frame` (default
−999); then template re-acquisition, which — whenever it produces a
candidate quad — updates `last_reacquire_frame` before identity
verification runs. -/
def recover_marker (cfg : Config) (env : Env) (st : FBState)
    (frame_gray : GrayFrame) (marker_id : ℤ) : RecoverOut :=
  match trackPhase cfg env st frame_gray marker_id with
  | (some r, tAtt) => ⟨some r, st.last_reacquire_frame, tAtt, false⟩
  | (none, tAtt) =>
    if st.current_frame_index -
        ((st.last_reacquire_frame marker_id).getD (-999)) <
        cfg.reacquire_interval_frames then
      ⟨none, st.last_reacquire_frame, tAtt, false⟩
    else
      match reacquire_from_template cfg env st.templates st.tracker_states
          marker_id frame_gray with
      | some (cs, info) =>
        if verify_marker_id cfg env st.detectorAvailable frame_gray cs
            marker_id then
          ⟨some (cs, info),
            updMap st.last_reacquire_frame marker_id st.current_frame_index,
            tAtt, true⟩
        else
          ⟨none,
            updMap st.last_reacquire_frame marker_id st.current_frame_index,
            tAtt, true⟩
      | none => ⟨none, st.last_reacquire_frame, tAtt, true⟩

/-- The `source="aruco"` debug record emitted for each directly
detected marker (lines 297–302). -/
def mkDirectDebug (p : ℤ × List Pt) : DebugInfo :=
  ⟨p.1, "aruco", 0, 1, none⟩

/-- Tracker-state overwrite for every directly detected marker
(lines 289–296). -/
def updateDetectedStates (m : ℤ → Option TrackerState) (fidx : ℤ)
    (fg : GrayFrame) (detected : List (ℤ × List Pt)) :
    ℤ → Option TrackerState :=
  detected.foldl
    (fun acc p => updMap acc p.1 ⟨p.1, some p.2, fidx, some fg⟩) m

/-- The set difference `missing_ids = expected_ids - detected_ids` (line 306), listed in
the order of `expected` (the Python set-iteration order is not
specified by the source; any deterministic order models it). -/
def missingOf (detected : List (ℤ × List Pt)) (expected : List ℤ) :
    List ℤ :=
  expected.filter fun i => decide (¬ i ∈ detected.map Prod.fst)

/-- The recency sort key (line 320): `last_seen_frame_index`, with
−999 for markers never seen. -/
def recencyKey (m : ℤ → Option TrackerState) (mid : ℤ) : ℤ :=
  match m mid with
  | some ts => ts.last_seen_frame_index
  | none => -999

/-- Stable insertion for a descending sort by key. -/
def insertDesc (key : ℤ → ℤ) (x : ℤ) : List ℤ → List ℤ
  | [] => [x]
  | y :: ys => if key y < key x then x :: y :: ys else y :: insertDesc key x ys

/-- Stable descending sort by key, modelling
`sorted(..., key=..., reverse=True)` (lines 318–322). -/
def sortDesc (key : ℤ → ℤ) (l : List ℤ) : List ℤ :=
  l.foldl (fun acc x => insertDesc key x acc) []

/-- Merge step of the recovery loop (lines 332–348): one attempt was
made; on a recovered quad, the defensive shape check lets only
4-point quads into the output dict and the debug list. -/
def mergeStep (acc : LoopAcc) (mid : ℤ) (out : RecoverOut) : LoopAcc :=
  match out.res with
  | some (cs, info) =>
    if cs.length = 4 then
      ⟨updAssoc acc.updated mid cs, acc.debug ++ [info], acc.attempts + 1,
        out.lastReacq,
        acc.events ++ [⟨mid, out.trackAttempted, out.reacquireAttempted, true⟩]⟩
    else
      ⟨acc.updated, acc.debug, acc.attempts + 1, out.lastReacq,
        acc.events ++ [⟨mid, out.trackAttempted, out.reacquireAttempted, false⟩]⟩
  | none =>
    ⟨acc.updated, acc.debug, acc.attempts + 1, out.lastReacq,
      acc.events ++ [⟨mid, out.trackAttempted, out.reacquireAttempted, false⟩]⟩

/-- One iteration of the recovery loop (lines 327–348): the slot guard
`recovery_attempts >= max_attempts` runs before anything else; past
it, `recovery_attempts` is incremented and `_recover_marker` invoked
regardless of whether the marker has a template or tracker state. -/
def stepRecover (cfg : Config) (env : Env) (da : Bool)
    (tst : ℤ → Option TrackerState) (tpl : ℤ → Option (List Pt))
    (fidx : ℤ) (fg : GrayFrame) (acc : LoopAcc) (mid : ℤ) : LoopAcc :=
  if cfg.max_fallback_markers_per_frame ≤ acc.attempts then acc
  else
    mergeStep acc mid
      (recover_marker cfg env ⟨true, da, tst, fidx, acc.lastReacq, tpl⟩ fg mid)

/-- The recovery loop over the recency-sorted missing list. -/
def loopRun (cfg : Config) (env : Env) (da : Bool)
    (tst : ℤ → Option TrackerState) (tpl : ℤ → Option (List Pt))
    (fidx : ℤ) (fg : GrayFrame) (lr : ℤ → Option ℤ)
    (detected : List (ℤ × List Pt)) (missing : List ℤ) : LoopAcc :=
  (sortDesc (recencyKey tst) missing).foldl
    (stepRecover cfg env da tst tpl fidx fg)
    ⟨detected, detected.map mkDirectDebug, 0, lr, []⟩

/-- Embedding of `recover_missing` (lines 261–350): the sole entry point.  Returns
the merged detection dict, the debug-info list, the updated instance
state, and the list of attempt events. -/
def recover_missing (cfg : Config) (env : Env) (st : FBState)
    (frame_bgr : ℕ) (detected : List (ℤ × List Pt)) (expected : List ℤ) :
    List (ℤ × List Pt) × List DebugInfo × FBState × List REvent :=
  if st.enabled = false then (detected, [], st, [])
  else
    if missingOf detected expected = [] then
      (detected, detected.map mkDirectDebug,
        ⟨st.enabled, st.detectorAvailable,
          updateDetectedStates st.tracker_states (st.current_frame_index + 1)
            (env.cvtGray frame_bgr) detected,
          st.current_frame_index + 1, st.last_reacquire_frame, st.templates⟩,
        [])
    else
      ((loopRun cfg env st.detectorAvailable
          (updateDetectedStates st.tracker_states (st.current_frame_index + 1)
            (env.cvtGray frame_bgr) detected)
          st.templates (st.current_frame_index + 1) (env.cvtGray frame_bgr)
          st.last_reacquire_frame detected
          (missingOf detected expected)).updated,
       (loopRun cfg env st.detectorAvailable
          (updateDetectedStates st.tracker_states (st.current_frame_index + 1)
            (env.cvtGray frame_bgr) detected)
          st.templates (st.current_frame_index + 1) (env.cvtGray frame_bgr)
          st.last_reacquire_frame detected
          (missingOf detected expected)).debug,
       ⟨st.enabled, st.detectorAvailable,
         updateDetectedStates st.tracker_states (st.current_frame_index + 1)
           (env.cvtGray frame_bgr) detected,
         st.current_frame_index + 1,
         (loopRun cfg env st.detectorAvailable
            (updateDetectedStates st.tracker_states (st.current_frame_index + 1)
              (env.cvtGray frame_bgr) detected)
            st.templates (st.current_frame_index + 1) (env.cvtGray frame_bgr)
            st.last_reacquire_frame detected
            (missingOf detected expected)).lastReacq,
         st.templates⟩,
       (loopRun cfg env st.detectorAvailable
          (updateDetectedStates st.tracker_states (st.current_frame_index + 1)
            (env.cvtGray frame_bgr) detected)
          st.templates (st.current_frame_index + 1) (env.cvtGray frame_bgr)
          st.last_reacquire_frame detected
          (missingOf detected expected)).events)

/-- The tracker-state table after step 2 of `recover_missing` (every
directly detected marker overwritten at the new frame index). -/
def newStatesOf (env : Env) (st : FBState) (frame : ℕ)
    (detected : List (ℤ × List Pt)) : ℤ → Option TrackerState :=
  updateDetectedStates st.tracker_states (st.current_frame_index + 1)
    (env.cvtGray frame) detected

/-- The recency-ordered missing-marker list of a `recover_missing`
call (most recently seen first). -/
def sortedMissingOf (env : Env) (st : FBState) (frame : ℕ)
    (detected : List (ℤ × List Pt)) (expected : List ℤ) : List ℤ :=
  sortDesc (recencyKey (newStatesOf env st frame detected))
    (missingOf detected expected)

/-- The final loop accumulator of a `recover_missing` call. -/
def loopRunOf (cfg : Config) (env : Env) (st : FBState) (frame : ℕ)
    (detected : List (ℤ × List Pt)) (expected : List ℤ) : LoopAcc :=
  (sortedMissingOf env st frame detected expected).foldl
    (stepRecover cfg env st.detectorAvailable (newStatesOf env st frame detected)
      st.templates (st.current_frame_index + 1) (env.cvtGray frame))
    ⟨detected, detected.map mkDirectDebug, 0, st.last_reacquire_frame, []⟩

/-! Concrete fixtures for witnesses and counterexamples. -/

/-- A 100×80 grayscale frame. -/
def gfX : GrayFrame := ⟨80, 100, 5⟩

/-- Template corner geometry of a 50×50 template. -/
def tq : List Pt := [⟨0, 0⟩, ⟨49, 0⟩, ⟨49, 49⟩, ⟨0, 49⟩]

/-- An in-bounds 4-corner quad. -/
def goodQuad : List Pt := [⟨10, 10⟩, ⟨30, 10⟩, ⟨30, 30⟩, ⟨10, 30⟩]

/-- A quad with a negative coordinate (outside the frame). -/
def badQuad : List Pt := [⟨-5, -5⟩, ⟨30, 10⟩, ⟨30, 30⟩, ⟨10, 30⟩]

/-- Environment in which every recovery oracle fails. -/
def envFail : Env :=
  ⟨fun _ => gfX, fun _ _ _ _ => none, fun _ cs => cs, fun _ _ _ => 0,
   fun _ _ _ => none, fun _ cs => cs, fun _ _ => Except.error ()⟩

/-- Environment in which template re-acquisition succeeds with 4 valid
matches, 4 inliers, and an in-bounds projected quad; the warped patch
decodes to id 7. -/
def envReacq : Env :=
  ⟨fun _ => gfX, fun _ _ _ _ => none, fun _ cs => cs, fun _ _ _ => 4,
   fun _ _ _ => some (0, 4), fun _ _ => goodQuad, fun _ _ => Except.ok [7]⟩

/-- Like `envReacq`, but sub-pixel refinement moves the corners out of
the frame. -/
def envReacqBad : Env :=
  ⟨fun _ => gfX, fun _ _ _ _ => none, fun _ _ => badQuad, fun _ _ _ => 4,
   fun _ _ _ => some (0, 4), fun _ _ => goodQuad, fun _ _ => Except.ok [7]⟩

/-- Like `envReacq`, but the warped patch decodes to no marker at all
(empty decode), so identity verification rejects. -/
def envReacqEmptyDecode : Env :=
  ⟨fun _ => gfX, fun _ _ _ _ => none, fun _ cs => cs, fun _ _ _ => 4,
   fun _ _ _ => some (0, 4), fun _ _ => goodQuad, fun _ _ => Except.ok []⟩

/-- Baseline config: verification off, `min_inliers = 4`,
`max_age_frames = 5`, `roi_expand_px = 10`, per-frame cap 3,
re-acquire interval 5, no ROI preference, no corner refinement. -/
def cfgBase : Config := ⟨false, 4, 5, 10, 3, 5, false, false⟩

/-- Variant of `cfgBase` with corner refinement enabled. -/
def cfgRefine : Config := ⟨false, 4, 5, 10, 3, 5, false, true⟩

/-- Variant of `cfgBase` with identity verification enabled. -/
def cfgVerify : Config := ⟨true, 4, 5, 10, 3, 5, false, false⟩

/-- Variant of `cfgBase` with `max_fallback_markers_per_frame = 1`. -/
def cfgCap1 : Config := ⟨false, 4, 5, 10, 1, 5, false, false⟩

/-- Variant of `cfgBase` with `max_fallback_markers_per_frame = 2`. -/
def cfgCap2 : Config := ⟨false, 4, 5, 10, 2, 5, false, false⟩

/-- A fresh enabled instance: no tracker state, no templates. -/
def stFresh : FBState :=
  ⟨true, true, fun _ => none, 0, fun _ => none, fun _ => none⟩

/-- Fresh instance holding a template for marker 7 only. -/
def stTpl7 : FBState :=
  ⟨true, true, fun _ => none, 0, fun _ => none,
   fun i => if i = 7 then some tq else none⟩

/-- Instance at frame 5 holding a template for marker 7. -/
def stTpl7At5 : FBState :=
  ⟨true, true, fun _ => none, 5, fun _ => none,
   fun i => if i = 7 then some tq else none⟩

/-- Instance at frame 12 whose marker 7 was last re-acquired at
frame 10. -/
def stReacq10 : FBState :=
  ⟨true, true, fun _ => none, 12, fun i => if i = 7 then some 10 else none,
   fun i => if i = 7 then some tq else none⟩

/-- Instance at frame 100 whose marker 7 was last seen at frame 1
(stale relative to `max_age_frames = 5`). -/
def stStale : FBState :=
  ⟨true, true,
   fun i => if i = 7 then some ⟨7, some goodQuad, 1, some gfX⟩ else none,
   100, fun _ => none, fun _ => none⟩

/-! Helper lemmas about the small data structures. -/

theorem updMap_self {α : Type} (m : ℤ → Option α) (k : ℤ) (v : α) :
    updMap m k v k = some v := by
  simp [updMap]

theorem updMap_ne {α : Type} (m : ℤ → Option α) (k : ℤ) (v : α) (i : ℤ)
    (h : i ≠ k) : updMap m k v i = m i := by
  simp [updMap, h]

theorem lookupA_updAssoc_self (l : List (ℤ × List Pt)) (k : ℤ)
    (v : List Pt) : lookupA (updAssoc l k v) k = some v := by
  induction l with
  | nil => simp [updAssoc, lookupA]
  | cons p t ih =>
    by_cases h : p.1 = k
    · simp [updAssoc, lookupA, h]
    · simp [updAssoc, lookupA, h, ih]

theorem lookupA_updAssoc_ne (l : List (ℤ × List Pt)) (k : ℤ) (v : List Pt)
    (i : ℤ) (h : i ≠ k) : lookupA (updAssoc l k v) i = lookupA l i := by
  induction l with
  | nil =>
    have hk : ¬ ((k : ℤ) = i) := fun hk => h hk.symm
    simp [updAssoc, lookupA, hk]
  | cons p t ih =>
    by_cases hp : p.1 = k
    · have hk : ¬ ((k : ℤ) = i) := fun hk => h hk.symm
      have hpi : ¬ (p.1 = i) := by rw [hp]; exact hk
      simp [updAssoc, lookupA, hp, hk, hpi]
    · by_cases hpi : p.1 = i
      · simp [updAssoc, lookupA, hp, hpi, h]
      · simp [updAssoc, lookupA, hp, hpi, ih]

theorem lookupA_eq_none_of_notmem (l : List (ℤ × List Pt)) (k : ℤ)
    (h : k ∉ l.map Prod.fst) : lookupA l k = none := by
  induction l with
  | nil => simp [lookupA]
  | cons p t ih =>
    simp only [List.map_cons, List.mem_cons, not_or] at h
    have hp : ¬ (p.1 = k) := fun hp => h.1 hp.symm
    simp [lookupA, hp, ih h.2]

theorem mem_of_lookupA_some (l : List (ℤ × List Pt)) (k : ℤ)
    (cs : List Pt) (h : lookupA l k = some cs) : k ∈ l.map Prod.fst := by
  induction l with
  | nil => simp [lookupA] at h
  | cons p t ih =>
    by_cases hp : p.1 = k
    · simp [List.map_cons, hp.symm ▸ List.mem_cons_self p.1 (t.map Prod.fst), hp]
    · simp only [lookupA, if_neg hp] at h
      simp [List.map_cons, ih h]

theorem mem_insertDesc (key : ℤ → ℤ) (x a : ℤ) (l : List ℤ) :
    a ∈ insertDesc key x l ↔ a = x ∨ a ∈ l := by
  induction l with
  | nil => simp [insertDesc]
  | cons y ys ih =>
    by_cases h : key y < key x
    · simp [insertDesc, h]
    · simp only [insertDesc, if_neg h, List.mem_cons, ih]
      tauto

theorem mem_sortDesc (key : ℤ → ℤ) (l : List ℤ) (a : ℤ) :
    a ∈ sortDesc key l ↔ a ∈ l := by
  suffices H : ∀ (l acc : List ℤ),
      a ∈ l.foldl (fun acc x => insertDesc key x acc) acc ↔ a ∈ l ∨ a ∈ acc by
    simpa [sortDesc] using H l []
  intro l
  induction l with
  | nil => simp
  | cons x t ih =>
    intro acc
    simp only [List.foldl_cons, ih, mem_insertDesc, List.mem_cons]
    tauto

theorem notmem_detected_of_mem_missing (detected : List (ℤ × List Pt))
    (expected : List ℤ) (mid : ℤ) (h : mid ∈ missingOf detected expected) :
    mid ∉ detected.map Prod.fst := by
  simp only [missingOf, List.mem_filter, decide_eq_true_eq] at h
  exact h.2

theorem updateDetectedStates_cons (m : ℤ → Option TrackerState) (fidx : ℤ)
    (fg : GrayFrame) (p : ℤ × List Pt) (t : List (ℤ × List Pt)) :
    updateDetectedStates m fidx fg (p :: t)
      = updateDetectedStates
          (updMap m p.1 ⟨p.1, some p.2, fidx, some fg⟩) fidx fg t := by
  rfl

theorem updateDetectedStates_notmem (m : ℤ → Option TrackerState) (fidx : ℤ)
    (fg : GrayFrame) (detected : List (ℤ × List Pt)) (mid : ℤ)
    (h : mid ∉ detected.map Prod.fst) :
    updateDetectedStates m fidx fg detected mid = m mid := by
  induction detected generalizing m with
  | nil => rfl
  | cons p t ih =>
    simp only [List.map_cons, List.mem_cons, not_or] at h
    rw [updateDetectedStates_cons, ih _ h.2,
      updMap_ne _ _ _ _ (fun hm => h.1 hm)]

theorem updateDetectedStates_mem (m : ℤ → Option TrackerState) (fidx : ℤ)
    (fg : GrayFrame) (detected : List (ℤ × List Pt)) (mid : ℤ) (cs : List Pt)
    (hnd : (detected.map Prod.fst).Nodup) (h : (mid, cs) ∈ detected) :
    updateDetectedStates m fidx fg detected mid
      = some ⟨mid, some cs, fidx, some fg⟩ := by
  induction detected generalizing m with
  | nil => simp at h
  | cons p t ih =>
    simp only [List.map_cons, List.nodup_cons] at hnd
    rw [updateDetectedStates_cons]
    rcases List.mem_cons.mp h with hh | ht
    · have hp1 : p.1 = mid := by rw [← hh]
      have hp2 : p.2 = cs := by rw [← hh]
      have hmid : mid ∉ t.map Prod.fst := hp1 ▸ hnd.1
      rw [updateDetectedStates_notmem _ _ _ _ _ hmid, hp1, hp2, updMap_self]
    · exact ih _ hnd.2 ht

theorem cornersOutOfBounds_eq_false (w h : ℕ) (l : List Pt) :
    cornersOutOfBounds w h l = false ↔ ∀ p ∈ l, inFrame w h p := by
  simp only [cornersOutOfBounds, List.any_eq_false, Bool.or_eq_true,
    decide_eq_true_eq, not_or, not_lt, not_le, inFrame]
  constructor
  · intro H p hp
    obtain ⟨⟨⟨h1, h2⟩, h3⟩, h4⟩ := H p hp
    exact ⟨h1, h2, h3, h4⟩
  · intro H p hp
    obtain ⟨h1, h2, h3, h4⟩ := H p hp
    exact ⟨⟨⟨h1, h2⟩, h3⟩, h4⟩

/-! Characterization of the recovery stages. -/

theorem track_marker_bounds (cfg : Config) (env : Env) (marker_id : ℤ)
    (ts : TrackerState) (fg : GrayFrame) (cs : List Pt) (info : DebugInfo)
    (h : track_marker cfg env marker_id ts fg = some (cs, info))
    (hr : cfg.corner_refine = false) :
    cs.length = 4 ∧ ∀ p ∈ cs, inFrame fg.w fg.h p := by
  unfold track_marker at h
  split at h
  case h_2 => exact absurd h (by simp)
  case h_1 lc prevGray =>
    split at h
    case h_1 => exact absurd h (by simp)
    case h_2 x0 y0 x1 y1 _ =>
      split at h
      case h_1 => exact absurd h (by simp)
      case h_2 next status errMean _ =>
        rw [hr] at h
        split at h
        case isFalse => exact absurd h (by simp)
        case isTrue =>
          simp only [Bool.false_eq_true, if_false] at h
          split at h
          case isTrue => exact absurd h (by simp)
          case isFalse hb =>
            split at h
            case isFalse => exact absurd h (by simp)
            case isTrue h4 =>
              obtain ⟨hcs, _⟩ := Prod.mk.injEq .. ▸ Option.some.inj h
              subst hcs
              refine ⟨h4, ?_⟩
              exact (cornersOutOfBounds_eq_false _ _ _).mp
                (Bool.not_eq_true _ ▸ hb)

theorem reacquire_bounds (cfg : Config) (env : Env)
    (templates : ℤ → Option (List Pt)) (tstates : ℤ → Option TrackerState)
    (marker_id : ℤ) (fg : GrayFrame) (cs : List Pt) (info : DebugInfo)
    (h : reacquire_from_template cfg env templates tstates marker_id fg
      = some (cs, info))
    (hr : cfg.corner_refine = false) :
    cs.length = 4 ∧ ∀ p ∈ cs, inFrame fg.w fg.h p := by
  unfold reacquire_from_template at h
  split at h
  case h_1 => exact absurd h (by simp)
  case h_2 tcorners _ =>
    split at h
    case h_1 => exact absurd h (by simp)
    case h_2 roi _ =>
      split at h
      case h_1 => simp at h
      case h_2 hTag inliers hfind =>
        rw [hr] at h
        simp only [Bool.false_eq_true, if_false] at h
        split at h
        case isTrue => simp at h
        case isFalse hvs =>
          split at h
          case isTrue => simp at h
          case isFalse hinl =>
            split at h
            case isFalse => simp at h
            case isTrue hlen4 =>
              split at h
              case isFalse => simp at h
              case isTrue hplen =>
                split at h
                case isTrue hoff =>
                  split at h
                  case isTrue => simp at h
                  case isFalse hb =>
                    obtain ⟨hcs, _⟩ := Prod.mk.injEq .. ▸ Option.some.inj h
                    subst hcs
                    exact ⟨by simp [hplen],
                      (cornersOutOfBounds_eq_false _ _ _).mp
                        (Bool.not_eq_true _ ▸ hb)⟩
                case isFalse hoff =>
                  split at h
                  case isTrue => simp at h
                  case isFalse hb =>
                    obtain ⟨hcs, _⟩ := Prod.mk.injEq .. ▸ Option.some.inj h
                    subst hcs
                    exact ⟨hplen,
                      (cornersOutOfBounds_eq_false _ _ _).mp
                        (Bool.not_eq_true _ ▸ hb)⟩

theorem verify_true_decode (cfg : Config) (env : Env) (da : Bool)
    (fg : GrayFrame) (cs : List Pt) (mid : ℤ)
    (hv : cfg.verify_id = true) (hd : da = true)
    (h : verify_marker_id cfg env da fg cs mid = true) :
    ∃ ids, env.decodeWarped fg cs = Except.ok ids ∧ mid ∈ ids ∧ ids ≠ [] := by
  unfold verify_marker_id at h
  rw [hv, hd] at h
  simp only [Bool.true_eq_false, or_self, if_false] at h
  split at h
  case h_1 => simp at h
  case h_2 ids heq =>
    obtain ⟨hne, hmem⟩ := of_decide_eq_true h
    exact ⟨ids, heq, hmem, hne⟩

theorem trackPhase_some (cfg : Config) (env : Env) (st : FBState)
    (fg : GrayFrame) (mid : ℤ) (r : List Pt × DebugInfo) (tAtt : Bool)
    (h : trackPhase cfg env st fg mid = (some r, tAtt)) :
    ∃ ts, st.tracker_states mid = some ts
      ∧ track_marker cfg env mid ts fg = some r
      ∧ verify_marker_id cfg env st.detectorAvailable fg r.1 mid = true := by
  unfold trackPhase at h
  split at h
  case h_1 => simp at h
  case h_2 ts heq =>
    split at h
    case isFalse => simp at h
    case isTrue hguard =>
      split at h
      case h_2 => simp at h
      case h_1 cs0 info0 htrack =>
        split at h
        case isFalse => simp at h
        case isTrue hver =>
          obtain ⟨h1, _⟩ := Prod.mk.injEq .. ▸ h
          obtain hr := Option.some.inj h1
          exact ⟨ts, heq, hr ▸ htrack, hr ▸ hver⟩

theorem recover_marker_res_spec (cfg : Config) (env : Env) (st : FBState)
    (fg : GrayFrame) (mid : ℤ) (cs : List Pt) (info : DebugInfo)
    (h : (recover_marker cfg env st fg mid).res = some (cs, info)) :
    verify_marker_id cfg env st.detectorAvailable fg cs mid = true
    ∧ ((∃ ts, st.tracker_states mid = some ts
          ∧ track_marker cfg env mid ts fg = some (cs, info))
       ∨ reacquire_from_template cfg env st.templates st.tracker_states mid fg
          = some (cs, info)) := by
  unfold recover_marker at h
  split at h
  case h_1 r tAtt heq =>
    have h' : some r = some (cs, info) := h
    obtain hr := Option.some.inj h'
    subst hr
    obtain ⟨ts, hts, htrack, hver⟩ := trackPhase_some cfg env st fg mid _ tAtt heq
    exact ⟨hver, Or.inl ⟨ts, hts, htrack⟩⟩
  case h_2 tAtt heq =>
    split at h
    case isTrue => simp at h
    case isFalse hgap =>
      split at h
      case h_2 => simp at h
      case h_1 cs0 info0 hre =>
        split at h
        case isFalse => simp at h
        case isTrue hver =>
          have h' : some (cs0, info0) = some (cs, info) := h
          obtain hr := Option.some.inj h'
          obtain ⟨hcs, hinfo⟩ := Prod.mk.injEq .. ▸ hr
          subst hcs
          subst hinfo
          exact ⟨hver, Or.inr hre⟩

theorem mergeStep_spec (acc : LoopAcc) (mid : ℤ) (out : RecoverOut) :
    (mergeStep acc mid out).attempts = acc.attempts + 1
    ∧ (mergeStep acc mid out).lastReacq = out.lastReacq
    ∧ (((mergeStep acc mid out).events = acc.events ++
          [⟨mid, out.trackAttempted, out.reacquireAttempted, true⟩]
        ∧ ∃ cs info, out.res = some (cs, info) ∧ cs.length = 4
            ∧ (mergeStep acc mid out).updated = updAssoc acc.updated mid cs
            ∧ (mergeStep acc mid out).debug = acc.debug ++ [info])
       ∨ ((mergeStep acc mid out).events = acc.events ++
          [⟨mid, out.trackAttempted, out.reacquireAttempted, false⟩]
          ∧ (mergeStep acc mid out).updated = acc.updated
          ∧ (mergeStep acc mid out).debug = acc.debug)) := by
  rcases hres : out.res with _ | ⟨cs, info⟩
  · simp [mergeStep, hres]
  · by_cases h4 : cs.length = 4
    · refine ⟨?_, ?_, Or.inl ⟨?_, cs, info, rfl, h4, ?_, ?_⟩⟩ <;>
        simp [mergeStep, hres, h4]
    · refine ⟨?_, ?_, Or.inr ⟨?_, ?_, ?_⟩⟩ <;>
        simp [mergeStep, hres, h4]

/-! Lemmas about the per-frame recovery loop. -/

section RecoveryLoop

variable (cfg : Config) (env : Env) (da : Bool) (tst : ℤ → Option TrackerState)
variable (tpl : ℤ → Option (List Pt)) (fidx : ℤ) (fg : GrayFrame)

theorem stepRecover_cases (acc : LoopAcc) (x : ℤ) :
    (cfg.max_fallback_markers_per_frame ≤ acc.attempts
      ∧ stepRecover cfg env da tst tpl fidx fg acc x = acc)
    ∨ (¬ cfg.max_fallback_markers_per_frame ≤ acc.attempts
      ∧ stepRecover cfg env da tst tpl fidx fg acc x
          = mergeStep acc x
              (recover_marker cfg env ⟨true, da, tst, fidx, acc.lastReacq, tpl⟩
                fg x)) := by
  by_cases hg : cfg.max_fallback_markers_per_frame ≤ acc.attempts
  · exact Or.inl ⟨hg, by unfold stepRecover; rw [if_pos hg]⟩
  · exact Or.inr ⟨hg, by unfold stepRecover; rw [if_neg hg]⟩

theorem loop_stuck (L : List ℤ) (acc : LoopAcc)
    (h : cfg.max_fallback_markers_per_frame ≤ acc.attempts) :
    L.foldl (stepRecover cfg env da tst tpl fidx fg) acc = acc := by
  induction L with
  | nil => rfl
  | cons x t ih =>
    simp only [List.foldl_cons]
    rw [show stepRecover cfg env da tst tpl fidx fg acc x = acc from by
      unfold stepRecover; rw [if_pos h]]
    exact ih

theorem loop_events_map (L : List ℤ) (acc : LoopAcc) :
    ((L.foldl (stepRecover cfg env da tst tpl fidx fg) acc).events).map
        REvent.mid
      = acc.events.map REvent.mid ++
        L.take ((cfg.max_fallback_markers_per_frame - acc.attempts).toNat) := by
  induction L generalizing acc with
  | nil => simp
  | cons x t ih =>
    rcases stepRecover_cases cfg env da tst tpl fidx fg acc x with
      ⟨hg, hstep⟩ | ⟨hg, hstep⟩
    · have h0 : (cfg.max_fallback_markers_per_frame - acc.attempts).toNat = 0 :=
        by omega
      simp only [List.foldl_cons, hstep]
      rw [ih acc, h0]
      simp [h0]
    · simp only [List.foldl_cons, hstep]
      obtain ⟨hatt, _, hc⟩ := mergeStep_spec acc x
        (recover_marker cfg env ⟨true, da, tst, fidx, acc.lastReacq, tpl⟩ fg x)
      rw [ih _]
      have hev : (mergeStep acc x
          (recover_marker cfg env ⟨true, da, tst, fidx, acc.lastReacq, tpl⟩
            fg x)).events.map REvent.mid
            = acc.events.map REvent.mid ++ [x] := by
        rcases hc with ⟨he, _⟩ | ⟨he, _, _⟩ <;> rw [he] <;> simp
      rw [hev, hatt]
      have hsucc : (cfg.max_fallback_markers_per_frame - acc.attempts).toNat
          = ((cfg.max_fallback_markers_per_frame - (acc.attempts + 1)).toNat)
            + 1 := by omega
      rw [hsucc, List.take_succ_cons, List.append_assoc]
      rfl

theorem loop_events_extend (L : List ℤ) (acc : LoopAcc) :
    ∃ s, (L.foldl (stepRecover cfg env da tst tpl fidx fg) acc).events
      = acc.events ++ s := by
  induction L generalizing acc with
  | nil => exact ⟨[], by simp⟩
  | cons x t ih =>
    simp only [List.foldl_cons]
    obtain ⟨s, hs⟩ := ih (stepRecover cfg env da tst tpl fidx fg acc x)
    rcases stepRecover_cases cfg env da tst tpl fidx fg acc x with
      ⟨_, hstep⟩ | ⟨_, hstep⟩
    · exact ⟨s, by rw [hs, hstep]⟩
    · obtain ⟨_, _, hc⟩ := mergeStep_spec acc x
        (recover_marker cfg env ⟨true, da, tst, fidx, acc.lastReacq, tpl⟩ fg x)
      rcases hc with ⟨he, _⟩ | ⟨he, _, _⟩
      · exact ⟨[⟨x, _, _, true⟩] ++ s, by
          rw [hs, hstep, he, List.append_assoc]⟩
      · exact ⟨[⟨x, _, _, false⟩] ++ s, by
          rw [hs, hstep, he, List.append_assoc]⟩

theorem loop_debug_extend (L : List ℤ) (acc : LoopAcc) :
    ∃ s, (L.foldl (stepRecover cfg env da tst tpl fidx fg) acc).debug
      = acc.debug ++ s := by
  induction L generalizing acc with
  | nil => exact ⟨[], by simp⟩
  | cons x t ih =>
    simp only [List.foldl_cons]
    obtain ⟨s, hs⟩ := ih (stepRecover cfg env da tst tpl fidx fg acc x)
    rcases stepRecover_cases cfg env da tst tpl fidx fg acc x with
      ⟨_, hstep⟩ | ⟨_, hstep⟩
    · exact ⟨s, by rw [hs, hstep]⟩
    · obtain ⟨_, _, hc⟩ := mergeStep_spec acc x
        (recover_marker cfg env ⟨true, da, tst, fidx, acc.lastReacq, tpl⟩ fg x)
      rcases hc with ⟨_, _, info, _, _, _, hd⟩ | ⟨_, _, hd⟩
      · exact ⟨[info] ++ s, by rw [hs, hstep, hd, List.append_assoc]⟩
      · exact ⟨s, by rw [hs, hstep, hd]⟩

theorem loop_step_lookup (acc : LoopAcc) (x : ℤ) (mid : ℤ) (hx : x ≠ mid) :
    lookupA ((stepRecover cfg env da tst tpl fidx fg acc x).updated) mid
      = lookupA acc.updated mid := by
  rcases stepRecover_cases cfg env da tst tpl fidx fg acc x with
    ⟨_, hstep⟩ | ⟨_, hstep⟩
  · rw [hstep]
  · obtain ⟨_, _, hc⟩ := mergeStep_spec acc x
      (recover_marker cfg env ⟨true, da, tst, fidx, acc.lastReacq, tpl⟩ fg x)
    rcases hc with ⟨_, cs, info, _, _, hu, _⟩ | ⟨_, hu, _⟩
    · rw [hstep, hu, lookupA_updAssoc_ne _ _ _ _ (Ne.symm hx)]
    · rw [hstep, hu]

theorem loop_lookup_notmem (L : List ℤ) (acc : LoopAcc) (mid : ℤ)
    (h : ∀ x ∈ L, x ≠ mid) :
    lookupA ((L.foldl (stepRecover cfg env da tst tpl fidx fg) acc).updated) mid
      = lookupA acc.updated mid := by
  induction L generalizing acc with
  | nil => rfl
  | cons x t ih =>
    simp only [List.foldl_cons]
    rw [ih _ (fun y hy => h y (List.mem_cons_of_mem _ hy))]
    exact loop_step_lookup cfg env da tst tpl fidx fg acc x mid
      (h x (List.mem_cons_self _ _))

theorem loop_lookup_noevent (L : List ℤ) (acc : LoopAcc) (mid : ℤ)
    (h : ∀ e ∈ (L.foldl (stepRecover cfg env da tst tpl fidx fg) acc).events,
      e.mid ≠ mid) :
    lookupA ((L.foldl (stepRecover cfg env da tst tpl fidx fg) acc).updated) mid
      = lookupA acc.updated mid := by
  induction L generalizing acc with
  | nil => rfl
  | cons x t ih =>
    rw [List.foldl_cons] at h ⊢
    rw [ih _ h]
    obtain ⟨s, hs⟩ := loop_events_extend cfg env da tst tpl fidx fg t
      (stepRecover cfg env da tst tpl fidx fg acc x)
    have hmem : ∀ e ∈ (stepRecover cfg env da tst tpl fidx fg acc x).events,
        e.mid ≠ mid := fun e he' =>
      h e (by rw [hs]; exact List.mem_append_left _ he')
    rcases stepRecover_cases cfg env da tst tpl fidx fg acc x with
      ⟨_, hstep⟩ | ⟨_, hstep⟩
    · rw [hstep]
    · obtain ⟨_, _, hc⟩ := mergeStep_spec acc x
        (recover_marker cfg env ⟨true, da, tst, fidx, acc.lastReacq, tpl⟩ fg x)
      rcases hc with ⟨he, cs, info, _, _, hu, _⟩ | ⟨he, hu, _⟩
      · have hxev : x ≠ mid := hmem _ (by
          rw [hstep, he]
          exact List.mem_append_right _ (List.mem_singleton_self _))
        rw [hstep, hu, lookupA_updAssoc_ne _ _ _ _ (Ne.symm hxev)]
      · rw [hstep, hu]

theorem loop_merge_origin (L : List ℤ) (acc : LoopAcc) (mid : ℤ) (cs : List Pt)
    (h : lookupA ((L.foldl (stepRecover cfg env da tst tpl fidx fg) acc).updated)
      mid = some cs) :
    lookupA acc.updated mid = some cs
    ∨ ∃ lr info,
        (recover_marker cfg env ⟨true, da, tst, fidx, lr, tpl⟩ fg mid).res
          = some (cs, info) ∧ cs.length = 4 := by
  induction L generalizing acc with
  | nil => exact Or.inl h
  | cons x t ih =>
    rw [List.foldl_cons] at h
    rcases ih _ h with hl | hr
    · rcases stepRecover_cases cfg env da tst tpl fidx fg acc x with
        ⟨_, hstep⟩ | ⟨_, hstep⟩
      · rw [hstep] at hl
        exact Or.inl hl
      · obtain ⟨_, _, hc⟩ := mergeStep_spec acc x
          (recover_marker cfg env ⟨true, da, tst, fidx, acc.lastReacq, tpl⟩ fg x)
        rcases hc with ⟨_, cs0, info0, hres, h40, hu, _⟩ | ⟨_, hu, _⟩
        · by_cases hmx : mid = x
          · subst hmx
            rw [hstep, hu, lookupA_updAssoc_self] at hl
            obtain hcs := Option.some.inj hl
            subst hcs
            exact Or.inr ⟨acc.lastReacq, info0, hres, h40⟩
          · rw [hstep, hu, lookupA_updAssoc_ne _ _ _ _ hmx] at hl
            exact Or.inl hl
        · rw [hstep, hu] at hl
          exact Or.inl hl
    · exact Or.inr hr

theorem loop_debug_count (L : List ℤ) (acc : LoopAcc) :
    (L.foldl (stepRecover cfg env da tst tpl fidx fg) acc).debug.length
        + (acc.events.filter (fun e => e.merged)).length
      = acc.debug.length
        + (((L.foldl (stepRecover cfg env da tst tpl fidx fg) acc).events.filter
            (fun e => e.merged)).length) := by
  induction L generalizing acc with
  | nil => simp
  | cons x t ih =>
    rw [List.foldl_cons]
    rcases stepRecover_cases cfg env da tst tpl fidx fg acc x with
      ⟨_, hstep⟩ | ⟨_, hstep⟩
    · rw [hstep]
      exact ih acc
    · obtain ⟨_, _, hc⟩ := mergeStep_spec acc x
        (recover_marker cfg env ⟨true, da, tst, fidx, acc.lastReacq, tpl⟩ fg x)
      have := ih (stepRecover cfg env da tst tpl fidx fg acc x)
      rcases hc with ⟨he, cs0, info0, _, _, _, hd⟩ | ⟨he, _, hd⟩
      · rw [hstep] at this ⊢
        rw [he, hd] at this
        simp only [List.filter_append, List.length_append] at this
        simp only [List.filter, List.length] at this
        omega
      · rw [hstep] at this ⊢
        rw [he, hd] at this
        simp only [List.filter_append, List.length_append] at this
        simp only [List.filter, List.length] at this
        omega

end RecoveryLoop

/-! Branch equations for `recover_missing`. -/

theorem recover_missing_disabled (cfg : Config) (env : Env) (st : FBState)
    (frame : ℕ) (detected : List (ℤ × List Pt)) (expected : List ℤ)
    (h : st.enabled = false) :
    recover_missing cfg env st frame detected expected
      = (detected, [], st, []) := by
  unfold recover_missing
  rw [if_pos h]

theorem recover_missing_nomissing (cfg : Config) (env : Env) (st : FBState)
    (frame : ℕ) (detected : List (ℤ × List Pt)) (expected : List ℤ)
    (hen : st.enabled = true) (hm : missingOf detected expected = []) :
    recover_missing cfg env st frame detected expected
      = (detected, detected.map mkDirectDebug,
          ⟨st.enabled, st.detectorAvailable, newStatesOf env st frame detected,
            st.current_frame_index + 1, st.last_reacquire_frame, st.templates⟩,
          []) := by
  unfold recover_missing
  rw [if_neg (by simp [hen]), if_pos hm]
  rfl

theorem recover_missing_loop (cfg : Config) (env : Env) (st : FBState)
    (frame : ℕ) (detected : List (ℤ × List Pt)) (expected : List ℤ)
    (hen : st.enabled = true) (hm : ¬ missingOf detected expected = []) :
    recover_missing cfg env st frame detected expected
      = ((loopRunOf cfg env st frame detected expected).updated,
         (loopRunOf cfg env st frame detected expected).debug,
         ⟨st.enabled, st.detectorAvailable, newStatesOf env st frame detected,
           st.current_frame_index + 1,
           (loopRunOf cfg env st frame detected expected).lastReacq,
           st.templates⟩,
         (loopRunOf cfg env st frame detected expected).events) := by
  unfold recover_missing
  rw [if_neg (by simp [hen]), if_neg hm]
  rfl

/-! Claim theorems. -/

/-- Claim C1: for every call to `recover_missing` and every marker id
present in the direct-detection input mapping, the returned mapping
contains that id with exactly the corners supplied in the input; a
recovered result never replaces a directly detected marker's corners
in the same frame. -/
theorem C1_detected_preserved (cfg : Config) (env : Env) (st : FBState)
    (frame : ℕ) (detected : List (ℤ × List Pt)) (expected : List ℤ)
    (mid : ℤ) (cs : List Pt) (h : lookupA detected mid = some cs) :
    lookupA (recover_missing cfg env st frame detected expected).1 mid
      = some cs := by
  by_cases hen : st.enabled = false
  · rw [recover_missing_disabled cfg env st frame detected expected hen]
    exact h
  · have hen' : st.enabled = true := by
      revert hen; cases st.enabled <;> simp
    by_cases hm : missingOf detected expected = []
    · rw [recover_missing_nomissing cfg env st frame detected expected hen' hm]
      exact h
    · rw [recover_missing_loop cfg env st frame detected expected hen' hm]
      have hall : ∀ x ∈ sortedMissingOf env st frame detected expected,
          x ≠ mid := by
        intro x hx hxe
        rw [hxe] at hx
        exact notmem_detected_of_mem_missing detected expected mid
          ((mem_sortDesc _ _ mid).mp hx)
          (mem_of_lookupA_some detected mid cs h)
      exact (loop_lookup_notmem cfg env st.detectorAvailable
        (newStatesOf env st frame detected) st.templates
        (st.current_frame_index + 1) (env.cvtGray frame)
        (sortedMissingOf env st frame detected expected)
        ⟨detected, detected.map mkDirectDebug, 0, st.last_reacquire_frame, []⟩
        mid hall).trans h

/-- Witness for C1 at a concrete input: marker 1 is directly detected
and survives the call unchanged. -/
theorem C1_witness :
    lookupA (recover_missing cfgBase envFail stFresh 0 [(1, goodQuad)]
      [1, 7]).1 1 = some goodQuad :=
  C1_detected_preserved cfgBase envFail stFresh 0 [(1, goodQuad)] [1, 7] 1
    goodQuad (by decide)

/-- Claim C10: each missing marker selected by the recency ordering
consumes one of the per-frame attempt slots before any applicability
check is made — the list of attempted markers is exactly the first
`max_fallback_markers_per_frame` entries of the recency-sorted missing
list, independent of template or tracker-state availability. -/
theorem C10_slot_consumption (cfg : Config) (env : Env) (st : FBState)
    (frame : ℕ) (detected : List (ℤ × List Pt)) (expected : List ℤ)
    (hen : st.enabled = true) :
    ((recover_missing cfg env st frame detected expected).2.2.2).map
        REvent.mid
      = (sortedMissingOf env st frame detected expected).take
          (cfg.max_fallback_markers_per_frame.toNat) := by
  by_cases hm : missingOf detected expected = []
  · rw [recover_missing_nomissing cfg env st frame detected expected hen hm]
    simp [sortedMissingOf, hm, sortDesc]
  · rw [recover_missing_loop cfg env st frame detected expected hen hm]
    have hev := loop_events_map cfg env st.detectorAvailable
      (newStatesOf env st frame detected) st.templates
      (st.current_frame_index + 1) (env.cvtGray frame)
      (sortedMissingOf env st frame detected expected)
      ⟨detected, detected.map mkDirectDebug, 0, st.last_reacquire_frame, []⟩
    simpa [loopRunOf] using hev

/-- Witness for C10: with a cap of 1, the incapable marker 3 (no
template, no tracker state) consumes the only slot; the recoverable
marker 7 is left unattempted and missing, although raising the cap to
2 recovers it. -/
theorem C10_witness :
    ((recover_missing cfgCap1 envReacq stTpl7 0 [] [3, 7]).2.2.2).map
        REvent.mid
      = (sortedMissingOf envReacq stTpl7 0 [] [3, 7]).take
          (cfgCap1.max_fallback_markers_per_frame.toNat)
    ∧ (recover_missing cfgCap1 envReacq stTpl7 0 [] [3, 7]).2.2.2
        = [⟨3, false, true, false⟩]
    ∧ lookupA (recover_missing cfgCap1 envReacq stTpl7 0 [] [3, 7]).1 7 = none
    ∧ lookupA (recover_missing cfgCap2 envReacq stTpl7 0 [] [3, 7]).1 7
        = some goodQuad :=
  ⟨C10_slot_consumption cfgCap1 envReacq stTpl7 0 [] [3, 7] rfl,
   by decide, by decide, by decide⟩

/-- Claim C3: the number of recovery attempts per call is at most
`max_fallback_markers_per_frame`, and a missing marker for which no
attempt was made stays missing that frame. -/
theorem C3_attempt_cap (cfg : Config) (env : Env) (st : FBState)
    (frame : ℕ) (detected : List (ℤ × List Pt)) (expected : List ℤ)
    (h : 0 ≤ cfg.max_fallback_markers_per_frame) :
    (((recover_missing cfg env st frame detected expected).2.2.2).length : ℤ)
      ≤ cfg.max_fallback_markers_per_frame
    ∧ ∀ mid, mid ∉ detected.map Prod.fst →
        (∀ e ∈ (recover_missing cfg env st frame detected expected).2.2.2,
          e.mid ≠ mid) →
        lookupA (recover_missing cfg env st frame detected expected).1 mid
          = none := by
  by_cases hen : st.enabled = false
  · rw [recover_missing_disabled cfg env st frame detected expected hen]
    exact ⟨by simpa using h,
      fun mid hmid _ => lookupA_eq_none_of_notmem detected mid hmid⟩
  · have hen' : st.enabled = true := by
      revert hen; cases st.enabled <;> simp
    by_cases hm : missingOf detected expected = []
    · rw [recover_missing_nomissing cfg env st frame detected expected hen' hm]
      exact ⟨by simpa using h,
        fun mid hmid _ => lookupA_eq_none_of_notmem detected mid hmid⟩
    · rw [recover_missing_loop cfg env st frame detected expected hen' hm]
      constructor
      · show (((loopRunOf cfg env st frame detected expected).events).length : ℤ)
          ≤ cfg.max_fallback_markers_per_frame
        have hev := loop_events_map cfg env st.detectorAvailable
          (newStatesOf env st frame detected) st.templates
          (st.current_frame_index + 1) (env.cvtGray frame)
          (sortedMissingOf env st frame detected expected)
          ⟨detected, detected.map mkDirectDebug, 0, st.last_reacquire_frame, []⟩
        have h2 := congrArg List.length hev
        simp only [List.length_map, List.length_append, List.length_nil,
          List.length_take] at h2
        have h3 : (loopRunOf cfg env st frame detected expected).events.length
            = (((cfg.max_fallback_markers_per_frame - 0).toNat) ⊓
              (sortedMissingOf env st frame detected expected).length) := by
          rw [show (loopRunOf cfg env st frame detected expected).events
            = (List.foldl (stepRecover cfg env st.detectorAvailable
                (newStatesOf env st frame detected) st.templates
                (st.current_frame_index + 1) (env.cvtGray frame))
              ⟨detected, detected.map mkDirectDebug, 0,
                st.last_reacquire_frame, []⟩
              (sortedMissingOf env st frame detected expected)).events from rfl]
          omega
        rw [h3]
        omega
      · intro mid hmid hne
        show lookupA (loopRunOf cfg env st frame detected expected).updated mid
          = none
        have hpre := loop_lookup_noevent cfg env st.detectorAvailable
          (newStatesOf env st frame detected) st.templates
          (st.current_frame_index + 1) (env.cvtGray frame)
          (sortedMissingOf env st frame detected expected)
          ⟨detected, detected.map mkDirectDebug, 0, st.last_reacquire_frame, []⟩
          mid (fun e he => hne e he)
        exact hpre.trans (lookupA_eq_none_of_notmem detected mid hmid)

/-- Witness for C3 at a concrete input: two missing markers, a cap of
one; one attempt is made and the unattempted marker 2 stays missing. -/
theorem C3_witness :
    (((recover_missing cfgCap1 envFail stFresh 0 [] [1, 2]).2.2.2).length : ℤ)
      ≤ cfgCap1.max_fallback_markers_per_frame
    ∧ lookupA (recover_missing cfgCap1 envFail stFresh 0 [] [1, 2]).1 2
        = none :=
  ⟨(C3_attempt_cap cfgCap1 envFail stFresh 0 [] [1, 2] (by decide)).1,
   (C3_attempt_cap cfgCap1 envFail stFresh 0 [] [1, 2] (by decide)).2 2
     (by decide) (by decide)⟩

/-- Counterexample to claim C9 as stated: marker 7 is missing, a
recovery attempt is made for it (one attempt event), yet the returned
record list holds only the single direct record for marker 1 — failed
attempts produce no record. -/
theorem C9_failed_attempt_no_record_cex :
    (recover_missing cfgBase envFail stFresh 0 [(1, goodQuad)] [1, 7]).2.1
      = [⟨1, "aruco", 0, 1, none⟩]
    ∧ (recover_missing cfgBase envFail stFresh 0 [(1, goodQuad)] [1, 7]).2.2.2
      = [⟨7, false, true, false⟩] := by
  constructor
  · decide
  · decide

/-- Claim C9 (amended): the returned record list consists of exactly
one record per directly detected marker followed by one record per
successful (merged) recovery; attempts that fail to produce a merged
quad contribute no record. -/
theorem C9_records (cfg : Config) (env : Env) (st : FBState)
    (frame : ℕ) (detected : List (ℤ × List Pt)) (expected : List ℤ)
    (hen : st.enabled = true) :
    ((recover_missing cfg env st frame detected expected).2.1).length
      = detected.length
        + (((recover_missing cfg env st frame detected expected).2.2.2).filter
            (fun e => e.merged)).length
    ∧ ((recover_missing cfg env st frame detected expected).2.1).take
        detected.length = detected.map mkDirectDebug := by
  by_cases hm : missingOf detected expected = []
  · rw [recover_missing_nomissing cfg env st frame detected expected hen hm]
    refine ⟨by simp, ?_⟩
    show (detected.map mkDirectDebug).take detected.length
      = detected.map mkDirectDebug
    rw [← List.length_map detected mkDirectDebug, List.take_length]
  · rw [recover_missing_loop cfg env st frame detected expected hen hm]
    constructor
    · show (loopRunOf cfg env st frame detected expected).debug.length
        = detected.length
          + (((loopRunOf cfg env st frame detected expected).events).filter
              (fun e => e.merged)).length
      have hdc := loop_debug_count cfg env st.detectorAvailable
        (newStatesOf env st frame detected) st.templates
        (st.current_frame_index + 1) (env.cvtGray frame)
        (sortedMissingOf env st frame detected expected)
        ⟨detected, detected.map mkDirectDebug, 0, st.last_reacquire_frame, []⟩
      simpa [loopRunOf] using hdc
    · show (loopRunOf cfg env st frame detected expected).debug.take
        detected.length = detected.map mkDirectDebug
      obtain ⟨s, hs⟩ := loop_debug_extend cfg env st.detectorAvailable
        (newStatesOf env st frame detected) st.templates
        (st.current_frame_index + 1) (env.cvtGray frame)
        (sortedMissingOf env st frame detected expected)
        ⟨detected, detected.map mkDirectDebug, 0, st.last_reacquire_frame, []⟩
      rw [show (loopRunOf cfg env st frame detected expected).debug
        = (List.foldl (stepRecover cfg env st.detectorAvailable
            (newStatesOf env st frame detected) st.templates
            (st.current_frame_index + 1) (env.cvtGray frame))
          ⟨detected, detected.map mkDirectDebug, 0, st.last_reacquire_frame, []⟩
          (sortedMissingOf env st frame detected expected)).debug from rfl, hs]
      rw [show (⟨detected, detected.map mkDirectDebug, 0,
          st.last_reacquire_frame, []⟩ : LoopAcc).debug
        = detected.map mkDirectDebug from rfl]
      rw [List.take_append_of_le_length (by simp)]
      rw [← List.length_map detected mkDirectDebug, List.take_length]

/-- Witness for the amended C9 at a concrete input: one direct marker,
one failed attempt, so one record in total and the direct records form
the head of the list. -/
theorem C9_witness :
    ((recover_missing cfgBase envFail stFresh 0 [(1, goodQuad)]
        [1, 7]).2.1).length
      = ([((1 : ℤ), goodQuad)] : List (ℤ × List Pt)).length
        + (((recover_missing cfgBase envFail stFresh 0 [(1, goodQuad)]
            [1, 7]).2.2.2).filter (fun e => e.merged)).length
    ∧ ((recover_missing cfgBase envFail stFresh 0 [(1, goodQuad)]
        [1, 7]).2.1).take
          ([((1 : ℤ), goodQuad)] : List (ℤ × List Pt)).length
        = [((1 : ℤ), goodQuad)].map mkDirectDebug :=
  C9_records cfgBase envFail stFresh 0 [(1, goodQuad)] [1, 7] rfl

/-- Counterexample to claim C2 as stated: with corner refinement
enabled, the bounds check runs before `cornerSubPix`, whose output is
merged unchecked — marker 7 is merged with a corner at (−5, −5). -/
theorem C2_refine_out_of_bounds_cex :
    lookupA (recover_missing cfgRefine envReacqBad stTpl7 0 [] [7]).1 7
      = some badQuad
    ∧ ¬ (∀ p ∈ badQuad,
        inFrame (envReacqBad.cvtGray 0).w (envReacqBad.cvtGray 0).h p) := by
  constructor
  · decide
  · decide

/-- Claim C2 (amended): every corner quad merged into the output from
a recovery has shape exactly 4×2 — unconditionally, by the defensive
shape check on merge — and, when corner refinement is disabled, so
that the merged quad is the one that was bounds-checked, every
coordinate lies within [0,width)×[0,height) of the frame.
(Coordinates are rationals in this embedding, hence finite.) -/
theorem C2_bounds_no_refine (cfg : Config) (env : Env) (st : FBState)
    (frame : ℕ) (detected : List (ℤ × List Pt)) (expected : List ℤ)
    (mid : ℤ) (cs : List Pt)
    (hnot : mid ∉ detected.map Prod.fst)
    (hlook : lookupA (recover_missing cfg env st frame detected expected).1 mid
      = some cs) :
    cs.length = 4
    ∧ (cfg.corner_refine = false →
        ∀ p ∈ cs, inFrame (env.cvtGray frame).w (env.cvtGray frame).h p) := by
  by_cases hen : st.enabled = false
  · rw [recover_missing_disabled cfg env st frame detected expected hen] at hlook
    rw [show (detected, ([] : List DebugInfo), st, ([] : List REvent)).1
      = detected from rfl, lookupA_eq_none_of_notmem detected mid hnot] at hlook
    simp at hlook
  · have hen' : st.enabled = true := by
      revert hen; cases st.enabled <;> simp
    by_cases hm : missingOf detected expected = []
    · rw [recover_missing_nomissing cfg env st frame detected expected hen' hm]
        at hlook
      rw [show lookupA (detected, detected.map mkDirectDebug,
          (⟨st.enabled, st.detectorAvailable, newStatesOf env st frame detected,
            st.current_frame_index + 1, st.last_reacquire_frame,
            st.templates⟩ : FBState), ([] : List REvent)).1 mid
        = lookupA detected mid from rfl,
        lookupA_eq_none_of_notmem detected mid hnot] at hlook
      simp at hlook
    · rw [recover_missing_loop cfg env st frame detected expected hen' hm]
        at hlook
      have horigin := loop_merge_origin cfg env st.detectorAvailable
        (newStatesOf env st frame detected) st.templates
        (st.current_frame_index + 1) (env.cvtGray frame)
        (sortedMissingOf env st frame detected expected)
        ⟨detected, detected.map mkDirectDebug, 0, st.last_reacquire_frame, []⟩
        mid cs hlook
      rcases horigin with hl | ⟨lr, info, hres, h4⟩
      · have hl' : lookupA detected mid = some cs := hl
        rw [lookupA_eq_none_of_notmem detected mid hnot] at hl'
        simp at hl'
      · refine ⟨h4, fun hrefine => ?_⟩
        obtain ⟨_, horig⟩ := recover_marker_res_spec cfg env
          ⟨true, st.detectorAvailable, newStatesOf env st frame detected,
            st.current_frame_index + 1, lr, st.templates⟩
          (env.cvtGray frame) mid cs info hres
        rcases horig with ⟨ts, _, htrack⟩ | hre
        · exact (track_marker_bounds cfg env mid ts (env.cvtGray frame) cs info
            htrack hrefine).2
        · exact (reacquire_bounds cfg env st.templates
            (newStatesOf env st frame detected) mid (env.cvtGray frame) cs info
            hre hrefine).2

/-- Witness for the amended C2 at concrete inputs: the quad merged for
marker 7 without refinement has 4 corners, all inside the 100×80
frame; the quad merged with refinement enabled still has exactly 4
corners. -/
theorem C2_witness :
    (goodQuad.length = 4
      ∧ (cfgBase.corner_refine = false →
          ∀ p ∈ goodQuad,
            inFrame (envReacq.cvtGray 0).w (envReacq.cvtGray 0).h p))
    ∧ badQuad.length = 4 :=
  ⟨C2_bounds_no_refine cfgBase envReacq stTpl7 0 [] [7] 7 goodQuad
     (by decide) (by decide),
   (C2_bounds_no_refine cfgRefine envReacqBad stTpl7 0 [] [7] 7 badQuad
     (by decide) (by decide)).1⟩

/-- Claim C7: when identity verification is enabled and a verification
detector is available, any recovered quad merged for a non-detected
marker decoded successfully (no exception), to a non-empty id set
containing the expected id. -/
theorem C7_verified_merge (cfg : Config) (env : Env) (st : FBState)
    (frame : ℕ) (detected : List (ℤ × List Pt)) (expected : List ℤ)
    (mid : ℤ) (cs : List Pt)
    (hen : st.enabled = true) (hv : cfg.verify_id = true)
    (hd : st.detectorAvailable = true)
    (hnot : mid ∉ detected.map Prod.fst)
    (hlook : lookupA (recover_missing cfg env st frame detected expected).1 mid
      = some cs) :
    ∃ ids, env.decodeWarped (env.cvtGray frame) cs = Except.ok ids
      ∧ mid ∈ ids ∧ ids ≠ [] := by
  by_cases hm : missingOf detected expected = []
  · rw [recover_missing_nomissing cfg env st frame detected expected hen hm]
      at hlook
    have hl' : lookupA detected mid = some cs := hlook
    rw [lookupA_eq_none_of_notmem detected mid hnot] at hl'
    simp at hl'
  · rw [recover_missing_loop cfg env st frame detected expected hen hm]
      at hlook
    have horigin := loop_merge_origin cfg env st.detectorAvailable
      (newStatesOf env st frame detected) st.templates
      (st.current_frame_index + 1) (env.cvtGray frame)
      (sortedMissingOf env st frame detected expected)
      ⟨detected, detected.map mkDirectDebug, 0, st.last_reacquire_frame, []⟩
      mid cs hlook
    rcases horigin with hl | ⟨lr, info, hres, _⟩
    · have hl' : lookupA detected mid = some cs := hl
      rw [lookupA_eq_none_of_notmem detected mid hnot] at hl'
      simp at hl'
    · obtain ⟨hver, _⟩ := recover_marker_res_spec cfg env
        ⟨true, st.detectorAvailable, newStatesOf env st frame detected,
          st.current_frame_index + 1, lr, st.templates⟩
        (env.cvtGray frame) mid cs info hres
      exact verify_true_decode cfg env st.detectorAvailable (env.cvtGray frame)
        cs mid hv hd hver

/-- Witness for C7 at a concrete input: the merged quad of marker 7
decodes to the id set [7]. -/
theorem C7_witness :
    ∃ ids, envReacq.decodeWarped (envReacq.cvtGray 0) goodQuad = Except.ok ids
      ∧ (7 : ℤ) ∈ ids ∧ ids ≠ [] :=
  C7_verified_merge cfgVerify envReacq stTpl7 0 [] [7] 7 goodQuad rfl rfl rfl
    (by decide) (by decide)

/-- Counterexample to claim C5 as stated: marker 7 is recovered (via
template re-acquisition) and merged into the output, yet no
TrackerState entry is created for it in that call. -/
theorem C5_recovered_no_state_cex :
    lookupA (recover_missing cfgBase envReacq stTpl7 0 [] [7]).1 7
      = some goodQuad
    ∧ ((recover_missing cfgBase envReacq stTpl7 0 [] [7]).2.2.1).tracker_states
        7 = none := by
  constructor
  · decide
  · decide

/-- Claim C5 (amended): TrackerState entries are created or
overwritten only for directly detected markers — each with the current
corners, current frame index, and a snapshot of the current grayscale
frame; every other marker (including those recovered by tracking or
re-acquisition) keeps its previous TrackerState unchanged in that
call. -/
theorem C5_state_updates (cfg : Config) (env : Env) (st : FBState)
    (frame : ℕ) (detected : List (ℤ × List Pt)) (expected : List ℤ)
    (hen : st.enabled = true)
    (hnd : (detected.map Prod.fst).Nodup) :
    (∀ mid cs, (mid, cs) ∈ detected →
      ((recover_missing cfg env st frame detected expected).2.2.1).tracker_states
        mid = some ⟨mid, some cs, st.current_frame_index + 1,
          some (env.cvtGray frame)⟩)
    ∧ ∀ mid, mid ∉ detected.map Prod.fst →
        ((recover_missing cfg env st frame detected
          expected).2.2.1).tracker_states mid = st.tracker_states mid := by
  by_cases hm : missingOf detected expected = []
  · rw [recover_missing_nomissing cfg env st frame detected expected hen hm]
    constructor
    · intro mid cs hmem
      exact updateDetectedStates_mem st.tracker_states
        (st.current_frame_index + 1) (env.cvtGray frame) detected mid cs hnd
        hmem
    · intro mid hmid
      exact updateDetectedStates_notmem st.tracker_states
        (st.current_frame_index + 1) (env.cvtGray frame) detected mid hmid
  · rw [recover_missing_loop cfg env st frame detected expected hen hm]
    constructor
    · intro mid cs hmem
      exact updateDetectedStates_mem st.tracker_states
        (st.current_frame_index + 1) (env.cvtGray frame) detected mid cs hnd
        hmem
    · intro mid hmid
      exact updateDetectedStates_notmem st.tracker_states
        (st.current_frame_index + 1) (env.cvtGray frame) detected mid hmid

/-- Witness for the amended C5 at a concrete input: the directly
detected marker 1 gets a fresh TrackerState; the never-seen marker 9
keeps none. -/
theorem C5_witness :
    ((recover_missing cfgBase envFail stFresh 0 [(1, goodQuad)]
        [1, 7]).2.2.1).tracker_states 1
      = some ⟨1, some goodQuad, stFresh.current_frame_index + 1,
          some (envFail.cvtGray 0)⟩
    ∧ ((recover_missing cfgBase envFail stFresh 0 [(1, goodQuad)]
        [1, 7]).2.2.1).tracker_states 9 = stFresh.tracker_states 9 :=
  ⟨(C5_state_updates cfgBase envFail stFresh 0 [(1, goodQuad)] [1, 7] rfl
      (by decide)).1 1 goodQuad (by decide),
   (C5_state_updates cfgBase envFail stFresh 0 [(1, goodQuad)] [1, 7] rfl
      (by decide)).2 9 (by decide)⟩

/-- Claim C8: motion tracking is never attempted for a marker whose
TrackerState is absent, older than `max_age_frames`, or lacks a cached
grayscale snapshot. -/
theorem C8_no_stale_tracking (cfg : Config) (env : Env) (st : FBState)
    (fg : GrayFrame) (mid : ℤ)
    (h : ∀ ts, st.tracker_states mid = some ts →
      cfg.max_age_frames < st.current_frame_index - ts.last_seen_frame_index
      ∨ ts.last_frame_gray = none) :
    (recover_marker cfg env st fg mid).trackAttempted = false := by
  have htp : trackPhase cfg env st fg mid = (none, false) := by
    unfold trackPhase
    split
    case h_1 => rfl
    case h_2 ts heq =>
      rw [if_neg]
      rintro ⟨h1, h2⟩
      rcases h ts heq with hage | hgray
      · omega
      · exact h2 hgray
  unfold recover_marker
  rw [htp]
  split
  case h_1 r tAtt heq => exact absurd heq (by simp)
  case h_2 tAtt heq =>
    obtain ⟨_, h2⟩ := Prod.mk.injEq .. ▸ heq
    split
    case isTrue => exact h2.symm
    case isFalse =>
      split
      case h_1 =>
        split
        case isTrue => exact h2.symm
        case isFalse => exact h2.symm
      case h_2 => exact h2.symm

/-- Witness for C8 at a concrete input: marker 7's state is 99 frames
old with `max_age_frames = 5`, so tracking is not attempted. -/
theorem C8_witness :
    (recover_marker cfgBase envFail stStale gfX 7).trackAttempted = false :=
  C8_no_stale_tracking cfgBase envFail stStale gfX 7 (by
    intro ts hts
    rw [show stStale.tracker_states 7 = some ⟨7, some goodQuad, 1, some gfX⟩
      from rfl] at hts
    obtain hts' := Option.some.inj hts
    subst hts'
    left
    decide)

/-- Shape of `_recover_marker`'s re-acquisition phase: either the
phase is not entered (guarded by the interval or pre-empted by a
successful track) and the rate-limit map is untouched, or it is
entered and the map is updated exactly when a candidate was
produced. -/
theorem recover_marker_cases (cfg : Config) (env : Env) (st : FBState)
    (fg : GrayFrame) (mid : ℤ) :
    ((recover_marker cfg env st fg mid).reacquireAttempted = false
      ∧ (recover_marker cfg env st fg mid).lastReacq
        = st.last_reacquire_frame)
    ∨ ((recover_marker cfg env st fg mid).reacquireAttempted = true
      ∧ ((reacquire_from_template cfg env st.templates st.tracker_states mid fg
            = none
          ∧ (recover_marker cfg env st fg mid).lastReacq
            = st.last_reacquire_frame)
        ∨ (reacquire_from_template cfg env st.templates st.tracker_states mid
            fg ≠ none
          ∧ (recover_marker cfg env st fg mid).lastReacq
            = updMap st.last_reacquire_frame mid st.current_frame_index))) := by
  unfold recover_marker
  split
  case h_1 => exact Or.inl ⟨rfl, rfl⟩
  case h_2 tAtt heq =>
    split
    case isTrue => exact Or.inl ⟨rfl, rfl⟩
    case isFalse =>
      split
      case h_1 cs info hre =>
        split
        case isTrue => exact Or.inr ⟨rfl, Or.inr ⟨by simp [hre], rfl⟩⟩
        case isFalse => exact Or.inr ⟨rfl, Or.inr ⟨by simp [hre], rfl⟩⟩
      case h_2 hre => exact Or.inr ⟨rfl, Or.inl ⟨hre, rfl⟩⟩

/-- Counterexample to claim C4 as stated: a re-acquire attempt for
marker 7 fails at frame 1 (the attempt event is recorded), and another
re-acquire is attempted at frame 2, only one frame later, with
`reacquire_interval_frames = 5` — a failed attempt does not start the
interval. -/
theorem C4_failed_attempt_retry_cex :
    (recover_missing cfgBase envFail stTpl7 0 [] [7]).2.2.2
      = [⟨7, false, true, false⟩]
    ∧ (recover_missing cfgBase envFail
        ((recover_missing cfgBase envFail stTpl7 0 [] [7]).2.2.1) 0 []
        [7]).2.2.2
      = [⟨7, false, true, false⟩]
    ∧ ((recover_missing cfgBase envFail stTpl7 0 [] [7]).2.2.1).current_frame_index
      = 1
    ∧ ((recover_missing cfgBase envFail
        ((recover_missing cfgBase envFail stTpl7 0 [] [7]).2.2.1) 0 []
        [7]).2.2.1).current_frame_index = 2
    ∧ cfgBase.reacquire_interval_frames = 5 := by
  refine ⟨?_, ?_, ?_, ?_, ?_⟩ <;> decide

/-- Claim C4 (amended): template re-acquisition is rate-limited by the
recorded `last_reacquire_frame` timestamp — within
`reacquire_interval_frames` of that timestamp no re-acquire is
attempted and the timestamp map is unchanged.  The timestamp is set
only by an attempt that produced a candidate quad (see C6); an attempt
that produced no candidate leaves it unchanged and therefore does not
block a retry at the next frame. -/
theorem C4_interval_guard (cfg : Config) (env : Env) (st : FBState)
    (fg : GrayFrame) (mid : ℤ)
    (h : st.current_frame_index - ((st.last_reacquire_frame mid).getD (-999))
      < cfg.reacquire_interval_frames) :
    (recover_marker cfg env st fg mid).reacquireAttempted = false
    ∧ (recover_marker cfg env st fg mid).lastReacq
      = st.last_reacquire_frame := by
  unfold recover_marker
  split
  case h_1 => exact ⟨rfl, rfl⟩
  case h_2 tAtt heq =>
    rw [if_pos h]
    exact ⟨rfl, rfl⟩

/-- Witness for the amended C4 at a concrete input: marker 7 was
re-acquired at frame 10; at frame 12, with an interval of 5, no
re-acquire is attempted and the timestamp map is unchanged. -/
theorem C4_witness :
    (recover_marker cfgBase envReacq stReacq10 gfX 7).reacquireAttempted
      = false
    ∧ (recover_marker cfgBase envReacq stReacq10 gfX 7).lastReacq
      = stReacq10.last_reacquire_frame :=
  C4_interval_guard cfgBase envReacq stReacq10 gfX 7 (by decide)

/-- Claim C6: whenever the re-acquisition phase is entered and
produces a candidate quad, `last_reacquire_frame` for that marker is
set to the current frame index — regardless of the subsequent identity
verification verdict. -/
theorem C6_timestamp_on_candidate (cfg : Config) (env : Env) (st : FBState)
    (fg : GrayFrame) (mid : ℤ)
    (hatt : (recover_marker cfg env st fg mid).reacquireAttempted = true)
    (hre : reacquire_from_template cfg env st.templates st.tracker_states mid
      fg ≠ none) :
    (recover_marker cfg env st fg mid).lastReacq mid
      = some st.current_frame_index := by
  rcases recover_marker_cases cfg env st fg mid with ⟨hf, _⟩ | ⟨_, hcase⟩
  · rw [hf] at hatt
    simp at hatt
  · rcases hcase with ⟨hnone, _⟩ | ⟨_, hupd⟩
    · exact absurd hnone hre
    · rw [hupd, updMap_self]

/-- Witness for C6 at a concrete input: the re-acquire candidate for
marker 7 fails identity verification (empty decode, so the result is
rejected), yet the rate-limit timestamp is set to the current frame. -/
theorem C6_witness :
    (recover_marker cfgVerify envReacqEmptyDecode stTpl7At5 gfX 7).lastReacq 7
      = some stTpl7At5.current_frame_index
    ∧ (recover_marker cfgVerify envReacqEmptyDecode stTpl7At5 gfX 7).res
      = none :=
  ⟨C6_timestamp_on_candidate cfgVerify envReacqEmptyDecode stTpl7At5 gfX 7
     (by decide) (by decide),
   by decide⟩
